import Mathlib

/-!
Shallow embedding of the off-chain VRF oracle server (`vrf-server` and
`vrf-sdk` crates) and verification of its specification.

Rust strings are modelled as `List Char`, byte buffers as `List Nat`
(each entry a byte value), and `Pubkey` values by their base58 string
rendering (`List Char`): the server compares pubkeys only through their
string form (`HashMap<String, Pubkey>` keyed by `pubkey.to_string()`),
so this representation is faithful.
-/

namespace SolanaVrf

/-! ## Log line classification (`vrf-server/src/parse_logs.rs`, `parse_log_line`) -/

/-- Type `LogType` from `parse_logs.rs`: the classification of one raw log line. -/
inductive LogType where
  | Trivia : LogType
  | Data : List Char → LogType
  | Invoke : List Char → LogType
  | Return : List Char → LogType
  | InProgram : List Char → LogType
  deriving DecidableEq, Repr

/-- Rust `char::is_ascii_alphanumeric`. -/
def isAsciiAlphanumeric (c : Char) : Bool :=
  ('A' ≤ c && c ≤ 'Z') || ('a' ≤ c && c ≤ 'z') || ('0' ≤ c && c ≤ '9')

/-- The character test in `parse_log_line`: the stripped payload is a `Data`
candidate iff every char is ascii-alphanumeric or one of `+`, `/`, `=`. -/
def isB64Alphabet (c : Char) : Bool :=
  isAsciiAlphanumeric c || c = '+' || c = '/' || c = '='

/-- Split a list at the LAST occurrence of the infix `pat`, returning the part
before and the part after the occurrence.  Models the greedy `(.*)` capture of
the regexes `^Program (.*) invoke.*$` and `^Program (.*) success*$`: a greedy
leading group captures everything up to the last occurrence of the literal
that follows it. -/
def splitLastInfix (pat : List Char) : List Char → Option (List Char × List Char)
  | [] => if pat = [] then some ([], []) else none
  | c :: rest =>
    match splitLastInfix pat rest with
    | some (b, a) => some (c :: b, a)
    | none =>
      if pat.isPrefixOf (c :: rest) then some ([], (c :: rest).drop pat.length)
      else none

/-- Function `parse_log_line` from `parse_logs.rs`.  The Rust function returns
`Result<LogType, ParseLogError>` but its error paths (`capture.get(1)`
returning `None`) are unreachable: group 1 of each regex always participates
in a match, so the embedding is total.

Classification order, as in the source:
1. lines prefixed `"Program log: "` / `"Program data: "` are `Data` when the
   remainder is drawn from the base64 alphabet, else `Trivia`;
2. `^Program (.*) invoke.*$` gives `Invoke` (greedy capture: text up to the
   last `" invoke"`);
3. `^Program (.*) success*$` gives `Return` (greedy capture: the remainder
   after the capture is `" succes"` followed by zero or more `s`);
4. `"Program <id> <rest>"` gives `InProgram` with `id` the text up to the
   first space;
5. anything else is `Trivia`. -/
def parse_log_line (log : List Char) : LogType :=
  match (if "Program log: ".toList.isPrefixOf log
          then some (log.drop "Program log: ".toList.length)
          else if "Program data: ".toList.isPrefixOf log
          then some (log.drop "Program data: ".toList.length)
          else none) with
  | some rest =>
    if rest.all isB64Alphabet then .Data rest else .Trivia
  | none =>
    if "Program ".toList.isPrefixOf log then
      let r := log.drop "Program ".toList.length
      match splitLastInfix " invoke".toList r with
      | some (b, _) => .Invoke b
      | none =>
        match splitLastInfix " succes".toList r with
        | some (b, a) =>
          if a.all (· = 's') then .Return b
          else if r.any (· = ' ') then .InProgram (r.takeWhile (· ≠ ' ')) else .Trivia
        | none =>
          if r.any (· = ' ') then .InProgram (r.takeWhile (· ≠ ' ')) else .Trivia
    else .Trivia

/-! ## Base64 decoding (external `base64` crate, `STANDARD` engine)

The server calls `base64::engine::general_purpose::STANDARD.decode`, an
external dependency.  We model its canonical-padding behaviour: input in
4-char blocks, `=` padding only ending the final block, rejected when the
discarded trailing bits are non-zero. -/

/-- Value of one base64 symbol. -/
def b64Val (c : Char) : Option Nat :=
  if 'A' ≤ c ∧ c ≤ 'Z' then some (c.toNat - 65)
  else if 'a' ≤ c ∧ c ≤ 'z' then some (c.toNat - 97 + 26)
  else if '0' ≤ c ∧ c ≤ '9' then some (c.toNat - 48 + 52)
  else if c = '+' then some 62
  else if c = '/' then some 63
  else none

/-- Decode base64 text (canonical padding, as the `STANDARD` engine).
`none` models the `Err` branch of `decode`. -/
def base64Decode : List Char → Option (List Nat)
  | [] => some []
  | c1 :: c2 :: c3 :: c4 :: rest =>
    match b64Val c1, b64Val c2 with
    | some v1, some v2 =>
      if c3 = '=' then
        if c4 = '=' ∧ rest = [] ∧ v2 % 16 = 0 then some [v1 * 4 + v2 / 16] else none
      else
        match b64Val c3 with
        | some v3 =>
          if c4 = '=' then
            if rest = [] ∧ v3 % 4 = 0 then
              some [v1 * 4 + v2 / 16, (v2 % 16) * 16 + v3 / 4]
            else none
          else
            match b64Val c4 with
            | some v4 =>
              (base64Decode rest).map
                (fun tail =>
                  (v1 * 4 + v2 / 16) :: ((v2 % 16) * 16 + v3 / 4) :: ((v3 % 4) * 64 + v4) :: tail)
            | none => none
        | none => none
    | _, _ => none
  | _ => none

/-! ## `parse_logs` (`vrf-server/src/parse_logs.rs`) -/

/-- Type `ParseLogError` from `parse_logs.rs`.  The `ParseInvoke` / `ParseReturn`
variants are omitted: their only producers are the unreachable
`capture.get(1) == None` paths of `parse_log_line`. -/
inductive ParseLogError where
  | ProgramIdMismatch (line : List Char) (current : Option (List Char)) (expect : List Char)
  | NoCurrentProgramId (line : List Char)
  | Base64Decode (line : List Char) (error : List Char)
  deriving DecidableEq, Repr

/-- Struct `AnchorEvent` from `parse_logs.rs` (the `Pubkey` by its string form). -/
structure AnchorEvent where
  program_id : List Char
  data : List Nat
  deriving DecidableEq, Repr

/-- The mutable state of the `for log in logs` loop in `parse_logs`:
the CPI stack plus the accumulated events and errors. -/
structure ParseState where
  cpi_stack : List (List Char)
  events : List AnchorEvent
  errors : List ParseLogError
  deriving DecidableEq, Repr

/-- One iteration of the `parse_logs` loop body on a single line.
`tracked` is the key set of the `program_ids` map (pubkey strings). -/
def parseStep (tracked : List (List Char)) (st : ParseState) (log : List Char) : ParseState :=
  match parse_log_line log with
  | .Invoke program_id => { st with cpi_stack := program_id :: st.cpi_stack }
  | .Return program_id =>
    match st.cpi_stack with
    | popped :: stack =>
      if popped ≠ program_id then
        { st with cpi_stack := stack,
                  errors := st.errors ++
                    [.ProgramIdMismatch log (some popped) program_id] }
      else { st with cpi_stack := stack }
    | [] => st
  | .InProgram program_id =>
    match st.cpi_stack with
    | current :: _ =>
      if current ≠ program_id then
        { st with errors := st.errors ++
                    [.ProgramIdMismatch log (some current) program_id] }
      else st
    | [] =>
      { st with errors := st.errors ++ [.ProgramIdMismatch log none program_id] }
  | .Data data =>
    match st.cpi_stack with
    | current :: _ =>
      if current ∈ tracked then
        match base64Decode data with
        | some bytes =>
          { st with events := st.events ++ [{ program_id := current, data := bytes }] }
        | none =>
          { st with errors := st.errors ++
                      [.Base64Decode log "invalid base64".toList] }
      else st
    | [] => { st with errors := st.errors ++ [.NoCurrentProgramId log] }
  | .Trivia => st

/-- The `parse_logs` loop over all lines. -/
def parseLogsAux (tracked : List (List Char)) (st : ParseState) :
    List (List Char) → ParseState
  | [] => st
  | log :: rest => parseLogsAux tracked (parseStep tracked st log) rest

/-- Function `parse_logs` from `parse_logs.rs`: events and errors extracted from a
transaction's log lines, given the tracked program-id set. -/
def parse_logs (logs : List (List Char)) (tracked : List (List Char)) :
    List AnchorEvent × List ParseLogError :=
  let final := parseLogsAux tracked ⟨[], [], []⟩ logs
  (final.events, final.errors)

/-! ## Event selection (`vrf-server/src/process.rs`, start of `process`) -/

/-- Anchor event discriminator of `VrfRequestRandomness`: the first 8 bytes of
`sha256("event:VrfRequestRandomness")` (generated by the external `#[event]`
macro of the on-chain SDK). -/
def vrfRequestRandomnessDiscriminator : List Nat :=
  [165, 136, 58, 240, 241, 40, 12, 65]

/-- Errors of the front part of `process` that the embedding distinguishes. -/
inductive ProcessError where
  /-- Rust panic: the slice `event.data[0..8]` is out of bounds. -/
  | panic
  /-- `process` returned `Err(...)` with the aggregated parse-error message. -/
  | parseErrors (msg : List Char)
  deriving DecidableEq, Repr

/-- The filter in `process`
(`events.into_iter().filter(|event| discriminator == event.data[0..8]).next()`):
returns the first event whose leading 8 bytes equal the
`VrfRequestRandomness` discriminator; evaluating the filter on an event whose
payload is shorter than 8 bytes panics (`event.data[0..8]` out of bounds). -/
def selectFirstVrfEvent : List AnchorEvent → Except ProcessError (Option AnchorEvent)
  | [] => .ok none
  | e :: rest =>
    if e.data.length < 8 then .error .panic
    else if e.data.take 8 = vrfRequestRandomnessDiscriminator then .ok (some e)
    else selectFirstVrfEvent rest

/-- Rendering of one `ParseLogError` by the derived `Debug` impl, as used by
`format!("{err:?}\n")` in `process` (the external `derive(Debug)` machinery,
modelled with the standard field layout; the exact punctuation is irrelevant
to the claims, which only need each error to appear in the message). -/
def errDebug : ParseLogError → List Char
  | .ProgramIdMismatch line current expect =>
    "ProgramIdMismatch \x7b line: ".toList ++ line ++ ", current: ".toList ++
      (match current with
       | some c => "Some(".toList ++ c ++ ")".toList
       | none => "None".toList) ++
      ", expect: ".toList ++ expect ++ " \x7d".toList
  | .NoCurrentProgramId line =>
    "NoCurrentProgramId \x7b line: ".toList ++ line ++ " \x7d".toList
  | .Base64Decode line error =>
    "Base64Decode \x7b line: ".toList ++ line ++ ", error: ".toList ++ error ++ " \x7d".toList

/-- The aggregated error message built in `process` when `errors` is
non-empty: `errors.into_iter().map(|err| format!("{err:?}\n")).collect()`. -/
def aggregateErrors (errors : List ParseLogError) : List Char :=
  errors.flatMap (fun e => errDebug e ++ ['\n'])

/-- The front of `process` (`process.rs` lines 50-71): parse the logs, abort
with the aggregated message when any parse error occurred, otherwise select
the first `VrfRequestRandomness` event (`Ok none` = "nothing to do"). -/
def processEventSelection (logs : List (List Char)) (tracked : List (List Char)) :
    Except ProcessError (Option AnchorEvent) :=
  if (parse_logs logs tracked).2.isEmpty then
    selectFirstVrfEvent (parse_logs logs tracked).1
  else .error (.parseErrors (aggregateErrors (parse_logs logs tracked).2))

/-! ## Callback rewriting (`vrf-sdk/src/vrf.rs`, `process.rs` lines 105-139) -/

/-- Constant `RESULT_BYTE_LEN` from `vrf-sdk/src/vrf.rs`. -/
def RESULT_BYTE_LEN : Nat := 32

/-- Constant `VRF_RESULT_DISCRIMINATOR` from `vrf-sdk/src/vrf.rs`: the 32-byte sentinel
filling an unfulfilled result slot. -/
def VRF_RESULT_DISCRIMINATOR : List Nat :=
  [169, 181, 96, 37, 231, 213, 250, 114, 103, 201, 179, 141, 92, 38, 30, 87,
   115, 210, 50, 29, 136, 193, 41, 211, 45, 205, 112, 191, 205, 195, 2, 105]

/-- Struct `AccountMetaPacked` from `vrf-sdk/src/vrf.rs`. -/
structure AccountMetaPacked where
  pubkey : List Char
  is_signer : Bool
  is_writable : Bool
  deriving DecidableEq, Repr

/-- Struct `CallbackPacked` from `vrf-sdk/src/vrf.rs`.  The fixed-size arrays
(`[AccountMetaPacked; 32]`, `[u8; 1024]`) are modelled as lists; the server
only reads their prefixes `[0..accounts_len]` / `[0..ix_data_len]`. -/
structure CallbackPacked where
  program_id : List Char
  accounts : List AccountMetaPacked
  accounts_len : Nat
  ix_data : List Nat
  ix_data_len : Nat
  deriving DecidableEq, Repr

/-- Struct `AccountMeta` from the ledger SDK. -/
structure AccountMeta where
  pubkey : List Char
  is_signer : Bool
  is_writable : Bool
  deriving DecidableEq, Repr

/-- Struct `Instruction` from the ledger SDK. -/
structure Instruction where
  program_id : List Char
  data : List Nat
  accounts : List AccountMeta
  deriving DecidableEq, Repr

/-- Search `ix_data.windows(RESULT_BYTE_LEN).enumerate().find(...)` from `process.rs`:
the index of the first window of `data` equal to `pat`, if any (windows
shorter than `pat` at the tail never match, exactly as `windows` yields no
short slice). -/
def findWindow (pat : List Nat) : List Nat → Option Nat
  | [] => none
  | d :: rest =>
    if pat.isPrefixOf (d :: rest) then some 0
    else (findWindow pat rest).map (· + 1)

/-- The instruction-building block of `process` (`process.rs` lines 105-139):
truncate the template buffer to `ix_data_len`, find the first occurrence of
the 32-byte sentinel, overwrite it with the computed randomness, and assemble
the instruction.  `program_id` is the `process` parameter (the subscription's
tracked program), which is what the source writes into
`Instruction { program_id: *program_id, .. }`. -/
def buildCallbackInstruction (program_id : List Char) (cb : CallbackPacked)
    (random : List Nat) : Except (List Char) Instruction :=
  let ix_data := cb.ix_data.take cb.ix_data_len
  match findWindow VRF_RESULT_DISCRIMINATOR ix_data with
  | some offset =>
    .ok
      { program_id := program_id
        data := ix_data.take offset ++ random ++ ix_data.drop (offset + RESULT_BYTE_LEN)
        accounts :=
          (cb.accounts.take cb.accounts_len).map
            (fun acc =>
              { pubkey := acc.pubkey
                is_signer := acc.is_signer
                is_writable := acc.is_writable }) }
  | none => .error "cannot found VrfResult in ix_data".toList

/-! ## Submission loop (`vrf-server/src/process.rs` lines 150-199)

The RPC client is external; each interaction of one loop iteration is
scripted: an `Attempt` holds the result of `send_and_confirm_transaction`
and, for the branch that refreshes it, the result of
`get_new_latest_blockhash`.  `ExponentialBackoff` is modelled by its retry
budget: `next_backoff()` yields a delay for the first `budget` calls and
`None` afterwards (the default backoff gives up after `max_elapsed_time`). -/

/-- The `TransactionError` variants distinguished by the loop. -/
inductive TransactionError where
  | BlockhashNotFound
  | AlreadyProcessed
  | Other (detail : List Char)
  deriving DecidableEq, Repr

/-- Struct `RpcSimulateTransactionResult`: only the `logs` field is read. -/
structure RpcSimulateTransactionResult where
  logs : Option (List (List Char))
  deriving DecidableEq, Repr

/-- Type `RpcResponseErrorData` and its variants. -/
inductive RpcResponseErrorData where
  | Empty
  | SendTransactionPreflightFailure (sim : RpcSimulateTransactionResult)
  | NodeUnhealthy
  deriving DecidableEq, Repr

/-- Type `RpcError` and its variants. -/
inductive RpcError where
  | RpcRequestError (msg : List Char)
  | RpcResponseError (data : RpcResponseErrorData)
  | ParseError (msg : List Char)
  | ForUser (msg : List Char)
  deriving DecidableEq, Repr

/-- Type `ClientErrorKind` from the RPC client: the transport-level (`Io`,
`Reqwest`), serialization, signing, RPC and transaction error kinds. -/
inductive ClientErrorKind where
  | Io (msg : List Char)
  | Reqwest (msg : List Char)
  | RpcError (err : RpcError)
  | SerdeJson (msg : List Char)
  | SigningError (msg : List Char)
  | TransactionError (err : TransactionError)
  | Custom (msg : List Char)
  deriving DecidableEq, Repr

/-- One scripted loop iteration: what `send_and_confirm_transaction` returns
(`Except` error kind or the confirmed signature), and what
`get_new_latest_blockhash` would return if this iteration refreshes
(`none` models its `Err`). -/
structure Attempt where
  send : Except ClientErrorKind (List Char)
  refresh : Option (List Char)
  deriving Repr

/-- The distinct terminal outcomes of the submission loop. -/
inductive SubmitResult where
  /-- `Ok(signature)` path. -/
  | success (signature : List Char)
  /-- preflight simulation failure with logs: `Err(err).context(msg)`. -/
  | preflight (msg : List Char)
  /-- any other classified error: `Err(err)?`. -/
  | clientError (kind : ClientErrorKind)
  /-- backoff exhausted: `Err(anyhow!("Send transaction failed!"))`. -/
  | budgetExhausted (msg : List Char)
  /-- the interaction script ran out while the loop wanted another attempt. -/
  | outOfScript
  deriving DecidableEq, Repr

/-- The message built for a preflight simulation failure
(`"Simulation error logs:"` then `'\t' log '\n'` per simulated line). -/
def simulationMsg (logs : List (List Char)) : List Char :=
  "Simulation error logs:".toList ++ logs.flatMap (fun log => '\t' :: (log ++ ['\n']))

/-- The `loop` of `process` (`process.rs` lines 150-199).  `budget` is the
number of remaining `next_backoff()` delays, `blockhash` the transaction's
current `recent_blockhash`.  Returns the outcome and the trace of blockhashes
the attempts were sent with. -/
def submitLoop (budget : Nat) (blockhash : List Char) :
    List Attempt → SubmitResult × List (List Char)
  | [] => (.outOfScript, [])
  | attempt :: rest =>
    match attempt.send with
    | .ok signature => (.success signature, [blockhash])
    | .error kind =>
      match kind with
      | .RpcError (.RpcResponseError data) =>
        match data with
        | .SendTransactionPreflightFailure { logs := some logs } =>
          (.preflight (simulationMsg logs), [blockhash])
        | _ => (.clientError kind, [blockhash])
      | .TransactionError .BlockhashNotFound
      | .TransactionError .AlreadyProcessed =>
        let blockhash2 :=
          match attempt.refresh with
          | some newBlockhash => newBlockhash
          | none => blockhash
        match budget with
        | 0 => (.budgetExhausted "Send transaction failed!".toList, [blockhash])
        | b + 1 =>
          ((submitLoop b blockhash2 rest).1,
            blockhash :: (submitLoop b blockhash2 rest).2)
      | _ => (.clientError kind, [blockhash])

/-! ## `VrfResult::random` (`vrf-sdk/src/lib.rs` lines 137-167) -/

/-- The error kinds `VrfResult::random` can produce: the `VrfNotFulfilled`
anchor error, or a Rust panic (`rand % bound` with `bound = 0`, or integer
range errors outside the claims' scope). -/
inductive VrfRandomError where
  | VrfNotFulfilled
  | panic
  deriving DecidableEq, Repr

/-- Big-endian interpretation of bytes as an unsigned integer. -/
def beBytesToNat (bytes : List Nat) : Nat :=
  bytes.foldl (fun acc b => acc * 256 + b) 0

/-- Rust `i128::from_be_bytes` on 16 bytes: two's-complement signed value. -/
def i128FromBeBytes (bytes : List Nat) : Int :=
  let u := beBytesToNat bytes
  if u < 2 ^ 127 then (u : Int) else (u : Int) - 2 ^ 128

/-- Method `VrfResult::random` from `vrf-sdk/src/lib.rs`: reject the all-zero and
sentinel values as `VrfNotFulfilled`, otherwise take the first 16 result
bytes as a big-endian `i128` and map it into `range` with Rust's truncating
`%` (`Int.tmod`; `bound = 0` panics in Rust). -/
def VrfResult_random (result : List Nat) (rangeStart rangeEnd : Int) :
    Except VrfRandomError Int :=
  if result = List.replicate RESULT_BYTE_LEN 0 ∨ result = VRF_RESULT_DISCRIMINATOR then
    .error .VrfNotFulfilled
  else
    let rand := i128FromBeBytes (result.take 16)
    let bound := rangeEnd - rangeStart
    if bound = 0 then .error .panic
    else .ok (Int.tmod rand bound + rangeStart)

/-! ## Well-formedness predicates for log batches -/

/-- Balance in the sense of claim C7's parenthesis: each `Return` line matches
the most recent unmatched `Invoke`, every `InProgram` line names the current
stack top, and the nesting closes (empty stack at the end).  `Data` and
`Trivia` lines are unconstrained. -/
def balancedClaim (stack : List (List Char)) : List (List Char) → Bool
  | [] => stack.isEmpty
  | log :: rest =>
    match parse_log_line log with
    | .Invoke id => balancedClaim (id :: stack) rest
    | .Return id =>
      match stack with
      | top :: s => top == id && balancedClaim s rest
      | [] => false
    | .InProgram id =>
      match stack with
      | top :: _ => top == id && balancedClaim stack rest
      | [] => false
    | _ => balancedClaim stack rest

/-- Balance strengthened so that every `Data` line is seen with a non-empty
invocation stack (inside some invocation). -/
def balancedFull (stack : List (List Char)) : List (List Char) → Bool
  | [] => stack.isEmpty
  | log :: rest =>
    match parse_log_line log with
    | .Invoke id => balancedFull (id :: stack) rest
    | .Return id =>
      match stack with
      | top :: s => top == id && balancedFull s rest
      | [] => false
    | .InProgram id =>
      match stack with
      | top :: _ => top == id && balancedFull stack rest
      | [] => false
    | .Data _ => !stack.isEmpty && balancedFull stack rest
    | .Trivia => balancedFull stack rest

/-- Returns `true` on the two stack-discipline diagnostics (`ProgramIdMismatch`,
`NoCurrentProgramId`), `false` on decode errors. -/
def isStackError : ParseLogError → Bool
  | .ProgramIdMismatch _ _ _ => true
  | .NoCurrentProgramId _ => true
  | .Base64Decode _ _ => false

/-- Equality of scripted send results is decidable (needed to evaluate
concrete submission scripts inside witnesses). -/
instance : DecidableEq (Except ClientErrorKind (List Char)) := fun a b =>
  match a, b with
  | .ok x, .ok y =>
    if h : x = y then .isTrue (by rw [h]) else .isFalse (fun c => h (Except.ok.inj c))
  | .error x, .error y =>
    if h : x = y then .isTrue (by rw [h]) else .isFalse (fun c => h (Except.error.inj c))
  | .ok _, .error _ => .isFalse (fun c => Except.noConfusion c)
  | .error _, .ok _ => .isFalse (fun c => Except.noConfusion c)

end SolanaVrf

namespace SolanaVrf

/-! ## Claim C6 -/

/-- C6: for every requested range, `VrfResult::random` returns the
`VrfNotFulfilled` error — never a usable value — whenever the stored result
is the all-zero 32-byte array or the 32-byte sentinel
`VRF_RESULT_DISCRIMINATOR`. -/
theorem C6_random_rejects_unfulfilled (result : List Nat) (rangeStart rangeEnd : Int)
    (h : result = List.replicate RESULT_BYTE_LEN 0 ∨ result = VRF_RESULT_DISCRIMINATOR) :
    VrfResult_random result rangeStart rangeEnd = .error .VrfNotFulfilled := by
  unfold VrfResult_random
  rw [if_pos h]

/-- Witness for C6 at the sentinel value and the range `0..=100`. -/
theorem C6_random_rejects_unfulfilled_witness :
    (VRF_RESULT_DISCRIMINATOR = List.replicate RESULT_BYTE_LEN 0 ∨
      VRF_RESULT_DISCRIMINATOR = VRF_RESULT_DISCRIMINATOR) ∧
    VrfResult_random VRF_RESULT_DISCRIMINATOR 0 100 = .error .VrfNotFulfilled :=
  ⟨Or.inr rfl, C6_random_rejects_unfulfilled VRF_RESULT_DISCRIMINATOR 0 100 (Or.inr rfl)⟩

/-! ## Claim C2 -/

/-- C2 counterexample: on the batch `["Program P x"]` (an `InProgram` line
with an empty invocation stack) the recorded error is
`ProgramIdMismatch { current: None }`, not the `NoCurrentProgramId` the claim
asserts. -/
theorem C2_counterexample :
    (parse_logs ["Program P x".toList] []).2 =
      [ParseLogError.ProgramIdMismatch "Program P x".toList none ['P']] ∧
    (parse_logs ["Program P x".toList] []).2 ≠
      [ParseLogError.NoCurrentProgramId "Program P x".toList] := by
  constructor
  · rfl
  · decide

/-- C2 (amended): an `InProgram` line processed while the invocation stack is
empty records a `ProgramIdMismatch` error with `current = None` for that
line, and the line is otherwise skipped (stack and events unchanged). -/
theorem C2_inprogram_empty_stack (tracked : List (List Char)) (log id : List Char)
    (events : List AnchorEvent) (errors : List ParseLogError)
    (h : parse_log_line log = .InProgram id) :
    parseStep tracked ⟨[], events, errors⟩ log =
      ⟨[], events, errors ++ [.ProgramIdMismatch log none id]⟩ := by
  unfold parseStep
  rw [h]

/-- Witness for C2's amended theorem on the line `"Program P x"`. -/
theorem C2_inprogram_empty_stack_witness :
    parseStep [] ⟨[], [], []⟩ "Program P x".toList =
      ⟨[], [], [.ProgramIdMismatch "Program P x".toList none ['P']]⟩ :=
  C2_inprogram_empty_stack [] "Program P x".toList ['P'] [] [] (by decide)

/-! ## Claim C10 -/

/-- C10: a `Return` line pops the invocation stack even when the popped id
differs from the line's id, recording exactly one `ProgramIdMismatch` in that
case while the loop continues with the next lines; a matching pop records
nothing; a `Return` on an empty stack records no error and leaves the stack
empty. -/
theorem C10_return_pops (tracked : List (List Char)) (log id : List Char)
    (events : List AnchorEvent) (errors : List ParseLogError)
    (h : parse_log_line log = .Return id) :
    (∀ top rest, top ≠ id →
      parseStep tracked ⟨top :: rest, events, errors⟩ log =
        ⟨rest, events, errors ++ [.ProgramIdMismatch log (some top) id]⟩) ∧
    (∀ rest, parseStep tracked ⟨id :: rest, events, errors⟩ log =
        ⟨rest, events, errors⟩) ∧
    (parseStep tracked ⟨[], events, errors⟩ log = ⟨[], events, errors⟩) ∧
    (∀ st more, parseLogsAux tracked st (log :: more) =
        parseLogsAux tracked (parseStep tracked st log) more) := by
  refine ⟨?_, ?_, ?_, fun st more => rfl⟩
  · intro top rest hne
    unfold parseStep
    rw [h]
    simp [hne]
  · intro rest
    unfold parseStep
    rw [h]
    simp
  · unfold parseStep
    rw [h]

/-- Witness for C10 on the line `"Program Q success"` with stack top `P`. -/
theorem C10_return_pops_witness :
    parseStep [] ⟨[['P']], [], []⟩ "Program Q success".toList =
      ⟨[], [],
        [.ProgramIdMismatch "Program Q success".toList (some ['P']) ['Q']]⟩ ∧
    parseStep [] ⟨[['Q']], [], []⟩ "Program Q success".toList = ⟨[], [], []⟩ ∧
    parseStep [] ⟨[], [], []⟩ "Program Q success".toList = ⟨[], [], []⟩ := by
  have h := C10_return_pops [] "Program Q success".toList ['Q'] [] [] (by decide)
  exact ⟨h.1 ['P'] [] (by decide), h.2.1 [], h.2.2.1⟩

/-! ## Submission-loop lemmas -/

/-- On a `BlockhashNotFound` / `AlreadyProcessed` send error the loop
refreshes the blockhash best-effort (keeping the old one when the refresh
fails) and, with budget remaining, retries; with the budget exhausted it
terminates with `"Send transaction failed!"`. -/
theorem submitLoop_retry_step (budget : Nat) (blockhash : List Char)
    (a : Attempt) (rest : List Attempt)
    (h : a.send = .error (.TransactionError .BlockhashNotFound) ∨
         a.send = .error (.TransactionError .AlreadyProcessed)) :
    submitLoop (budget + 1) blockhash (a :: rest) =
      ((submitLoop budget (a.refresh.getD blockhash) rest).1,
        blockhash :: (submitLoop budget (a.refresh.getD blockhash) rest).2) ∧
    submitLoop 0 blockhash (a :: rest) =
      (.budgetExhausted "Send transaction failed!".toList, [blockhash]) := by
  obtain ⟨send, refresh⟩ := a
  simp only [Attempt.send] at h
  rcases h with h | h <;> subst h <;>
    cases refresh <;>
      exact ⟨rfl, rfl⟩

/-- A script made only of `BlockhashNotFound` / `AlreadyProcessed` failures
that is longer than the backoff budget drives the loop into the terminal
`"Send transaction failed!"` outcome. -/
theorem submitLoop_budget_exhausted (budget : Nat) :
    ∀ (blockhash : List Char) (script : List Attempt),
      budget < script.length →
      (∀ a ∈ script,
        a.send = .error (.TransactionError .BlockhashNotFound) ∨
        a.send = .error (.TransactionError .AlreadyProcessed)) →
      (submitLoop budget blockhash script).1 =
        .budgetExhausted "Send transaction failed!".toList := by
  induction budget with
  | zero =>
    intro blockhash script hlen hall
    match script with
    | [] => simp at hlen
    | a :: rest =>
      have := hall a (List.mem_cons_self a rest)
      rw [(submitLoop_retry_step 0 blockhash a rest this).2]
  | succ b ih =>
    intro blockhash script hlen hall
    match script with
    | [] => simp at hlen
    | a :: rest =>
      have ha := hall a (List.mem_cons_self a rest)
      rw [(submitLoop_retry_step b blockhash a rest ha).1]
      exact ih (a.refresh.getD blockhash) rest (by simpa using hlen)
        (fun x hx => hall x (List.mem_cons_of_mem a hx))

/-- Every simulated log line occurs verbatim inside the block of
tab-indented lines appended to the preflight error message. -/
theorem mem_isInfix_logBlock (logs : List (List Char)) (log : List Char)
    (h : log ∈ logs) :
    List.IsInfix log (logs.flatMap (fun l => '\t' :: (l ++ ['\n']))) := by
  induction logs with
  | nil => cases h
  | cons x xs ih =>
    rcases List.mem_cons.mp h with rfl | hmem
    · exact ⟨['\t'], '\n' :: xs.flatMap (fun l => '\t' :: (l ++ ['\n'])), by simp⟩
    · obtain ⟨s, t, hst⟩ := ih hmem
      exact ⟨'\t' :: (x ++ ['\n']) ++ s, t, by simp [← hst]⟩

/-! ## Claim C1 -/

/-- C1 counterexample: a transport-layer (`Io`) RPC error on the first
attempt is terminal — the loop returns the client error after one attempt
even though the budget (5) is unspent and a later attempt in the script would
have succeeded — contradicting the claim that network/RPC-layer errors are
retried. -/
theorem C1_counterexample :
    submitLoop 5 ['h']
        [{ send := .error (.Io ['x']), refresh := some ['i'] },
         { send := .ok ['s'], refresh := none }] =
      (.clientError (.Io ['x']), [['h']]) := by
  rfl

/-- C1 (amended): in the submission loop only a `BlockhashNotFound` or
`AlreadyProcessed` transaction error causes a best-effort refresh of the
block reference (refresh failure ignored) followed by a backoff retry;
transient network/RPC-layer errors (`Io`, `Reqwest`) are terminal on the
spot. -/
theorem C1_retry_classification (budget : Nat) (blockhash : List Char)
    (a : Attempt) (rest : List Attempt)
    (h : a.send = .error (.TransactionError .BlockhashNotFound) ∨
         a.send = .error (.TransactionError .AlreadyProcessed)) :
    (submitLoop (budget + 1) blockhash (a :: rest) =
      ((submitLoop budget (a.refresh.getD blockhash) rest).1,
        blockhash :: (submitLoop budget (a.refresh.getD blockhash) rest).2)) ∧
    (∀ m r more,
      submitLoop budget blockhash ({ send := .error (.Io m), refresh := r } :: more) =
        (.clientError (.Io m), [blockhash])) ∧
    (∀ m r more,
      submitLoop budget blockhash ({ send := .error (.Reqwest m), refresh := r } :: more) =
        (.clientError (.Reqwest m), [blockhash])) := by
  refine ⟨(submitLoop_retry_step budget blockhash a rest h).1, ?_, ?_⟩ <;>
    · intro m r more
      simp [submitLoop]

/-- Witness for C1's amended theorem: a `BlockhashNotFound` attempt whose
refresh fails retries with the old blockhash and then succeeds. -/
theorem C1_retry_classification_witness :
    submitLoop 3 ['h']
        [{ send := .error (.TransactionError .BlockhashNotFound), refresh := none },
         { send := .ok ['s'], refresh := none }] =
      (.success ['s'], [['h'], ['h']]) := by
  rw [(C1_retry_classification 2 ['h']
        { send := .error (.TransactionError .BlockhashNotFound), refresh := none }
        [{ send := .ok ['s'], refresh := none }] (Or.inl rfl)).1]
  rfl

/-! ## Claim C5 -/

/-- C5: the loop retries `BlockhashNotFound` / `AlreadyProcessed` failures
only up to the backoff budget (a script of such failures longer than the
budget ends in the terminal `"Send transaction failed!"`), and a preflight
simulation failure carrying executed logs is never retried: it terminates on
the very first attempt with the simulated log lines embedded verbatim in the
message. -/
theorem C5_budget_and_preflight (budget : Nat) (blockhash : List Char) :
    (∀ script : List Attempt,
      budget < script.length →
      (∀ a ∈ script,
        a.send = .error (.TransactionError .BlockhashNotFound) ∨
        a.send = .error (.TransactionError .AlreadyProcessed)) →
      (submitLoop budget blockhash script).1 =
        .budgetExhausted "Send transaction failed!".toList) ∧
    (∀ logs r rest,
      submitLoop budget blockhash
          ({ send := .error (.RpcError (.RpcResponseError
              (.SendTransactionPreflightFailure { logs := some logs }))),
             refresh := r } :: rest) =
        (.preflight (simulationMsg logs), [blockhash])) ∧
    (∀ logs log, log ∈ logs → List.IsInfix log (simulationMsg logs)) := by
  refine ⟨submitLoop_budget_exhausted budget blockhash, ?_, ?_⟩
  · intro logs r rest
    simp [submitLoop]
  intro logs log hmem
  obtain ⟨s, t, hst⟩ := mem_isInfix_logBlock logs log hmem
  exact ⟨"Simulation error logs:".toList ++ s, t, by simp [simulationMsg, ← hst]⟩

/-- Witness for C5: budget 1 against two stale-blockhash failures exhausts
into the terminal error; a preflight failure with one log line terminates
immediately, the line appearing in the message. -/
theorem C5_budget_and_preflight_witness :
    (submitLoop 1 ['h']
        [{ send := .error (.TransactionError .BlockhashNotFound), refresh := none },
         { send := .error (.TransactionError .AlreadyProcessed), refresh := none }]).1 =
      .budgetExhausted "Send transaction failed!".toList ∧
    submitLoop 1 ['h']
        [{ send := .error (.RpcError (.RpcResponseError
            (.SendTransactionPreflightFailure { logs := some [['o', 'k']] }))),
           refresh := none }] =
      (.preflight (simulationMsg [['o', 'k']]), [['h']]) ∧
    List.IsInfix ['o', 'k'] (simulationMsg [['o', 'k']]) := by
  have h := C5_budget_and_preflight 1 ['h']
  exact ⟨h.1 _ (by decide) (by decide), h.2.1 [['o', 'k']] none [],
    h.2.2 [['o', 'k']] ['o', 'k'] (by decide)⟩

/-! ## Window-search lemmas -/

/-- Lemma: `findWindow` returning `some o` means the pattern occurs at offset `o`
and at no smaller offset: it is the FIRST occurrence. -/
theorem findWindow_spec (pat : List Nat) :
    ∀ (data : List Nat) (o : Nat), findWindow pat data = some o →
      pat.isPrefixOf (data.drop o) = true ∧
      ∀ j < o, pat.isPrefixOf (data.drop j) = false := by
  intro data
  induction data with
  | nil => intro o h; simp [findWindow] at h
  | cons d rest ih =>
    intro o h
    by_cases hp : pat.isPrefixOf (d :: rest) = true
    · unfold findWindow at h
      rw [if_pos hp] at h
      cases h
      exact ⟨hp, fun j hj => absurd hj (Nat.not_lt_zero j)⟩
    · unfold findWindow at h
      rw [if_neg hp] at h
      cases hfr : findWindow pat rest with
      | none => rw [hfr] at h; simp at h
      | some o' =>
        rw [hfr] at h
        simp at h
        subst h
        obtain ⟨h1, h2⟩ := ih o' hfr
        refine ⟨by simpa using h1, ?_⟩
        intro j hj
        match j with
        | 0 =>
          simp only [Bool.not_eq_true] at hp
          rw [List.drop_zero]
          exact hp
        | j' + 1 =>
          simp only [List.drop_succ_cons]
          exact h2 j' (by omega)

/-- Lemma: `findWindow` returning `none` means a non-empty pattern occurs at no
offset at all. -/
theorem findWindow_none_spec (pat : List Nat) (hpat : pat ≠ []) :
    ∀ data, findWindow pat data = none →
      ∀ j, pat.isPrefixOf (data.drop j) = false := by
  intro data
  induction data with
  | nil =>
    intro _ j
    rw [List.drop_nil]
    match pat, hpat with
    | p :: ps, _ => rfl
  | cons d rest ih =>
    intro h j
    by_cases hp : pat.isPrefixOf (d :: rest) = true
    · unfold findWindow at h
      rw [if_pos hp] at h
      cases h
    · unfold findWindow at h
      rw [if_neg hp] at h
      match j with
      | 0 =>
        simp only [Bool.not_eq_true] at hp
        rw [List.drop_zero]
        exact hp
      | j' + 1 =>
        simp only [List.drop_succ_cons]
        cases hfr : findWindow pat rest with
        | none => exact ih hfr j'
        | some o' => rw [hfr] at h; simp at h

/-! ## Claim C4 -/

/-- C4 counterexample: a callback template whose own `program_id` is `T`,
processed under the subscription program id `S`, yields an instruction whose
`program_id` is `S` — the source builds `Instruction { program_id:
*program_id, .. }` from the `process` parameter, not from the template's
`program_id` field, contradicting the claim's "from the template's program
id". -/
theorem C4_counterexample :
    buildCallbackInstruction ['S']
        { program_id := ['T'], accounts := [], accounts_len := 0,
          ix_data := VRF_RESULT_DISCRIMINATOR, ix_data_len := 32 }
        (List.replicate 32 7) =
      .ok { program_id := ['S'], data := List.replicate 32 7, accounts := [] } ∧
    (['S'] : List Char) ≠ ['T'] := by
  constructor
  · rfl
  · decide

/-- C4 (amended): with a computed result of the fixed 32-byte size, if the
truncated instruction-data buffer contains the sentinel then the builder
rewrites exactly the FIRST occurrence (the found offset carries the sentinel
and no earlier offset does), every byte before the occurrence and from its
end onwards is unchanged, and the instruction is assembled from the
SUBSCRIPTION's program id (the `process` parameter, not the template's
`program_id` field) and the template's first `accounts_len` account
descriptors with signer/writable flags preserved; if the buffer contains no
occurrence the builder fails with the placeholder-not-found error and builds
no instruction. -/
theorem C4_callback_rewrite (program_id : List Char) (cb : CallbackPacked)
    (random buf : List Nat) (o : Nat)
    (hrand : random.length = RESULT_BYTE_LEN)
    (hbuf : buf = cb.ix_data.take cb.ix_data_len) :
    (findWindow VRF_RESULT_DISCRIMINATOR buf = some o →
      buildCallbackInstruction program_id cb random =
        .ok { program_id := program_id
              data := buf.take o ++ random ++ buf.drop (o + RESULT_BYTE_LEN)
              accounts := (cb.accounts.take cb.accounts_len).map (fun acc =>
                { pubkey := acc.pubkey, is_signer := acc.is_signer,
                  is_writable := acc.is_writable }) } ∧
      VRF_RESULT_DISCRIMINATOR.isPrefixOf (buf.drop o) = true ∧
      (∀ j < o, VRF_RESULT_DISCRIMINATOR.isPrefixOf (buf.drop j) = false) ∧
      (∀ j < o,
        (buf.take o ++ random ++ buf.drop (o + RESULT_BYTE_LEN))[j]? = buf[j]?) ∧
      (∀ j, o + RESULT_BYTE_LEN ≤ j →
        (buf.take o ++ random ++ buf.drop (o + RESULT_BYTE_LEN))[j]? = buf[j]?)) ∧
    (findWindow VRF_RESULT_DISCRIMINATOR buf = none →
      buildCallbackInstruction program_id cb random =
        .error "cannot found VrfResult in ix_data".toList) := by
  subst hbuf
  constructor
  · intro hfind
    obtain ⟨hat, hmin⟩ := findWindow_spec VRF_RESULT_DISCRIMINATOR _ o hfind
    have hR : RESULT_BYTE_LEN = 32 := rfl
    have hlen : o + RESULT_BYTE_LEN ≤ (cb.ix_data.take cb.ix_data_len).length := by
      have hpre := List.isPrefixOf_iff_prefix.mp hat
      have := hpre.length_le
      simp only [List.length_drop] at this
      have hdisc : VRF_RESULT_DISCRIMINATOR.length = 32 := by decide
      omega
    have htake : ((cb.ix_data.take cb.ix_data_len).take o).length = o := by
      rw [List.length_take]
      omega
    refine ⟨?_, hat, hmin, ?_, ?_⟩
    · simp [buildCallbackInstruction, hfind]
    · intro j hj
      simp only [List.append_assoc]
      rw [List.getElem?_append, if_pos (by rw [htake]; exact hj)]
      simp [List.getElem?_take, hj]
    · intro j hj
      simp only [List.append_assoc]
      rw [List.getElem?_append, if_neg (by rw [htake]; omega), htake,
        List.getElem?_append, if_neg (by rw [hrand]; omega), hrand,
        List.getElem?_drop]
      congr 1
      omega
  · intro hfind
    simp [buildCallbackInstruction, hfind]

/-- Witness for C4's amended theorem: a 40-byte buffer holding the sentinel
at offset 8 has exactly those 32 bytes replaced. -/
theorem C4_callback_rewrite_witness :
    buildCallbackInstruction ['S']
        { program_id := ['S'],
          accounts := [{ pubkey := ['A'], is_signer := true, is_writable := false }],
          accounts_len := 1,
          ix_data := [1, 2, 3, 4, 5, 6, 7, 8] ++ VRF_RESULT_DISCRIMINATOR,
          ix_data_len := 40 }
        (List.replicate 32 9) =
      .ok { program_id := ['S'],
            data := [1, 2, 3, 4, 5, 6, 7, 8] ++ List.replicate 32 9,
            accounts := [{ pubkey := ['A'], is_signer := true, is_writable := false }] } := by
  have h := (C4_callback_rewrite ['S']
      { program_id := ['S'],
        accounts := [{ pubkey := ['A'], is_signer := true, is_writable := false }],
        accounts_len := 1,
        ix_data := [1, 2, 3, 4, 5, 6, 7, 8] ++ VRF_RESULT_DISCRIMINATOR,
        ix_data_len := 40 }
      (List.replicate 32 9)
      (([1, 2, 3, 4, 5, 6, 7, 8] ++ VRF_RESULT_DISCRIMINATOR).take 40) 8
      (by decide) rfl).1 (by decide)
  rw [h.1]
  rfl

/-! ## Claim C3 -/

/-- C3: counterexample to the in-bounds claim.  The log batch
`["Program P invoke [1]", "Program data: aGVsbG8="]` with `P` tracked parses
with ZERO errors into one event whose payload is the 5-byte decode of
`aGVsbG8=` (`"hello"`); evaluating the event-selection filter on it hits the
out-of-bounds slice `event.data[0..8]` — a Rust panic — so the parse-clean
hypothesis does not make the discriminator read in-bounds. -/
theorem C3_short_payload_panics :
    (parse_logs ["Program P invoke [1]".toList, "Program data: aGVsbG8=".toList]
        [['P']]).2 = [] ∧
    (parse_logs ["Program P invoke [1]".toList, "Program data: aGVsbG8=".toList]
        [['P']]).1 =
      [{ program_id := ['P'], data := [104, 101, 108, 108, 111] }] ∧
    selectFirstVrfEvent
        (parse_logs ["Program P invoke [1]".toList, "Program data: aGVsbG8=".toList]
          [['P']]).1 =
      .error .panic :=
  ⟨rfl, rfl, rfl⟩

/-! ## Claim C9 -/

/-- Each parse error's rendering occurs verbatim inside the aggregated
error message. -/
theorem mem_isInfix_aggregate (errors : List ParseLogError) (e : ParseLogError)
    (h : e ∈ errors) : List.IsInfix (errDebug e) (aggregateErrors errors) := by
  induction errors with
  | nil => cases h
  | cons x xs ih =>
    rcases List.mem_cons.mp h with rfl | hmem
    · exact ⟨[], '\n' :: aggregateErrors xs, by simp [aggregateErrors]⟩
    · obtain ⟨s, t, hst⟩ := ih hmem
      refine ⟨errDebug x ++ ['\n'] ++ s, t, ?_⟩
      simp only [aggregateErrors, List.flatMap_cons] at hst ⊢
      rw [← hst]
      simp

/-- The selection filter passes over a list of events that all carry at least
8 payload bytes and none of which matches the request discriminator. -/
theorem selectFirstVrfEvent_none (events : List AnchorEvent)
    (h : ∀ e ∈ events, 8 ≤ e.data.length ∧
        e.data.take 8 ≠ vrfRequestRandomnessDiscriminator) :
    selectFirstVrfEvent events = .ok none := by
  induction events with
  | nil => rfl
  | cons x xs ih =>
    obtain ⟨hlen, hne⟩ := h x (List.mem_cons_self x xs)
    unfold selectFirstVrfEvent
    rw [if_neg (by omega), if_neg hne]
    exact ih (fun e he => h e (List.mem_cons_of_mem x he))

/-- C9 counterexample: on the batch of `C3_short_payload_panics` the parse is
clean and no event's leading 8 bytes equal the request discriminator (the
only event has 5 bytes), yet the front of `process` does not return
`Ok(None)`: it panics on the out-of-bounds discriminator slice. -/
theorem C9_counterexample :
    processEventSelection
        ["Program P invoke [1]".toList, "Program data: aGVsbG8=".toList] [['P']] =
      .error .panic ∧
    (parse_logs ["Program P invoke [1]".toList, "Program data: aGVsbG8=".toList]
        [['P']]).2 = [] ∧
    (parse_logs ["Program P invoke [1]".toList, "Program data: aGVsbG8=".toList]
        [['P']]).1.all
        (fun e => decide (e.data.take 8 ≠ vrfRequestRandomnessDiscriminator)) = true :=
  ⟨rfl, rfl, by decide⟩

/-- C9 (amended): whenever `parse_logs` reports any error, `process` aborts
with the aggregated message in which each parse error occurs verbatim; and
when the parse is clean and every parsed payload carries at least 8 bytes
(so the discriminator reads are in bounds) with none matching the
randomness-request discriminator, the front of `process` returns the
successful empty outcome `Ok(None)`. -/
theorem C9_parse_abort_or_empty_ok (logs tracked : List (List Char)) :
    ((parse_logs logs tracked).2 ≠ [] →
      processEventSelection logs tracked =
        .error (.parseErrors (aggregateErrors (parse_logs logs tracked).2)) ∧
      ∀ e ∈ (parse_logs logs tracked).2,
        List.IsInfix (errDebug e) (aggregateErrors (parse_logs logs tracked).2)) ∧
    ((parse_logs logs tracked).2 = [] →
      (∀ e ∈ (parse_logs logs tracked).1,
        8 ≤ e.data.length ∧ e.data.take 8 ≠ vrfRequestRandomnessDiscriminator) →
      processEventSelection logs tracked = .ok none) := by
  constructor
  · intro hne
    refine ⟨?_, fun e he => mem_isInfix_aggregate _ e he⟩
    unfold processEventSelection
    rw [if_neg (by simpa [List.isEmpty_iff] using hne)]
  · intro hempty hall
    unfold processEventSelection
    rw [if_pos (by simp [List.isEmpty_iff, hempty])]
    exact selectFirstVrfEvent_none _ hall

/-- Witness for C9's amended theorem: a batch with one malformed line aborts
with the aggregated message; the empty batch returns `Ok(None)`. -/
theorem C9_parse_abort_or_empty_ok_witness :
    processEventSelection ["Program P x".toList] [] =
      .error (.parseErrors (aggregateErrors (parse_logs ["Program P x".toList] []).2)) ∧
    processEventSelection [] [] = .ok none := by
  have h1 := C9_parse_abort_or_empty_ok ["Program P x".toList] []
  have h2 := C9_parse_abort_or_empty_ok [] []
  exact ⟨(h1.1 (by decide)).1, h2.2 rfl (fun e he => by cases he)⟩

/-! ## Event-attribution lemmas -/

/-- One loop step either leaves the event list untouched or appends exactly
one event whose `program_id` is the current stack top and lies in the
tracked set. -/
theorem parseStep_events (tracked : List (List Char)) (st : ParseState) (log : List Char) :
    (parseStep tracked st log).events = st.events ∨
    ∃ top bytes, st.cpi_stack.head? = some top ∧ top ∈ tracked ∧
      (parseStep tracked st log).events =
        st.events ++ [{ program_id := top, data := bytes }] := by
  unfold parseStep
  cases hl : parse_log_line log with
  | Trivia => exact Or.inl rfl
  | Invoke id => exact Or.inl rfl
  | Return id =>
    cases hstack : st.cpi_stack with
    | nil => exact Or.inl rfl
    | cons top rest =>
      dsimp only
      by_cases h : top ≠ id
      · rw [if_pos h]; exact Or.inl rfl
      · rw [if_neg h]; exact Or.inl rfl
  | InProgram id =>
    cases hstack : st.cpi_stack with
    | nil => exact Or.inl rfl
    | cons top rest =>
      dsimp only
      by_cases h : top ≠ id
      · rw [if_pos h]; exact Or.inl rfl
      · rw [if_neg h]; exact Or.inl rfl
  | Data d =>
    cases hstack : st.cpi_stack with
    | nil => exact Or.inl rfl
    | cons current rest =>
      dsimp only
      by_cases h : current ∈ tracked
      · rw [if_pos h]
        cases base64Decode d with
        | none => exact Or.inl rfl
        | some bytes =>
          exact Or.inr ⟨current, bytes, rfl, h, rfl⟩
      · rw [if_neg h]; exact Or.inl rfl

/-- Running the loop preserves "every accumulated event's program id is
tracked". -/
theorem parseLogsAux_events_tracked (tracked : List (List Char)) :
    ∀ (logs : List (List Char)) (st : ParseState),
      (∀ e ∈ st.events, e.program_id ∈ tracked) →
      ∀ e ∈ (parseLogsAux tracked st logs).events, e.program_id ∈ tracked := by
  intro logs
  induction logs with
  | nil => intro st h e he; exact h e he
  | cons log rest ih =>
    intro st h e he
    refine ih (parseStep tracked st log) ?_ e he
    intro x hx
    rcases parseStep_events tracked st log with heq | ⟨top, bytes, _, htop, heq⟩
    · rw [heq] at hx; exact h x hx
    · rw [heq] at hx
      rcases List.mem_append.mp hx with hx | hx
      · exact h x hx
      · obtain rfl := List.mem_singleton.mp hx
        exact htop

/-! ## Claim C8 -/

/-- C8: each step of `parse_logs` either emits no event or appends exactly
one event attributed to the program on top of the invocation stack at that
moment, a program that belongs to the tracked set; consequently every event
in the final output of `parse_logs` carries a tracked program id. -/
theorem C8_event_attribution (tracked : List (List Char)) :
    (∀ (st : ParseState) (log : List Char),
      (parseStep tracked st log).events = st.events ∨
      ∃ top bytes, st.cpi_stack.head? = some top ∧ top ∈ tracked ∧
        (parseStep tracked st log).events =
          st.events ++ [{ program_id := top, data := bytes }]) ∧
    (∀ (logs : List (List Char)) (e : AnchorEvent),
      e ∈ (parse_logs logs tracked).1 → e.program_id ∈ tracked) :=
  ⟨fun st log => parseStep_events tracked st log,
   fun logs e he =>
     parseLogsAux_events_tracked tracked logs ⟨[], [], []⟩
       (fun x hx => absurd hx (List.not_mem_nil x)) e he⟩

/-- Witness for C8: on the sample batch the single parsed event is attributed
to the tracked program `P`. -/
theorem C8_event_attribution_witness :
    ({ program_id := ['P'], data := [104, 101, 108, 108, 111] } : AnchorEvent).program_id
      ∈ [['P']] :=
  (C8_event_attribution [['P']]).2
    ["Program P invoke [1]".toList, "Program data: aGVsbG8=".toList]
    { program_id := ['P'], data := [104, 101, 108, 108, 111] }
    (by decide)

/-! ## Balanced-batch lemmas -/

/-- Main induction for C7: from any state whose stack satisfies
`balancedFull` for the remaining lines, the loop ends with an empty stack
and adds only non-stack-discipline errors (base64 failures at worst). -/
theorem balancedFull_parseLogsAux (tracked : List (List Char)) :
    ∀ (logs : List (List Char)) (st : ParseState),
      balancedFull st.cpi_stack logs = true →
      (parseLogsAux tracked st logs).cpi_stack = [] ∧
      ∀ e ∈ (parseLogsAux tracked st logs).errors,
        e ∈ st.errors ∨ isStackError e = false := by
  intro logs
  induction logs with
  | nil =>
    intro st h
    rw [balancedFull] at h
    exact ⟨List.isEmpty_iff.mp h, fun e he => Or.inl he⟩
  | cons log rest ih =>
    intro st h
    rw [balancedFull] at h
    cases hl : parse_log_line log with
    | Invoke id =>
      rw [hl] at h
      have hstep : parseStep tracked st log =
          { st with cpi_stack := id :: st.cpi_stack } := by
        unfold parseStep; rw [hl]
      have hgoal : parseLogsAux tracked st (log :: rest) =
          parseLogsAux tracked (parseStep tracked st log) rest := rfl
      rw [hgoal, hstep]
      exact ih { st with cpi_stack := id :: st.cpi_stack } h
    | Return id =>
      rw [hl] at h
      cases hstack : st.cpi_stack with
      | nil => rw [hstack] at h; simp at h
      | cons top s =>
        rw [hstack] at h
        dsimp only at h
        rw [Bool.and_eq_true] at h
        obtain ⟨htop, hbal⟩ := h
        have htop' : top = id := by simpa using htop
        subst htop'
        have hstep : parseStep tracked st log = { st with cpi_stack := s } := by
          unfold parseStep
          rw [hl, hstack]
          dsimp only
          rw [if_neg (by simp)]
        have hgoal : parseLogsAux tracked st (log :: rest) =
            parseLogsAux tracked (parseStep tracked st log) rest := rfl
        rw [hgoal, hstep]
        exact ih { st with cpi_stack := s } hbal
    | InProgram id =>
      rw [hl] at h
      cases hstack : st.cpi_stack with
      | nil => rw [hstack] at h; simp at h
      | cons top s =>
        rw [hstack] at h
        dsimp only at h
        rw [Bool.and_eq_true] at h
        obtain ⟨htop, hbal⟩ := h
        have htop' : top = id := by simpa using htop
        subst htop'
        have hstep : parseStep tracked st log = st := by
          unfold parseStep
          rw [hl, hstack]
          dsimp only
          rw [if_neg (by simp)]
        have hgoal : parseLogsAux tracked st (log :: rest) =
            parseLogsAux tracked (parseStep tracked st log) rest := rfl
        rw [hgoal, hstep]
        refine ih st ?_
        rw [hstack]
        exact hbal
    | Data d =>
      rw [hl] at h
      cases hstack : st.cpi_stack with
      | nil => rw [hstack] at h; simp at h
      | cons current s =>
        rw [hstack] at h
        dsimp only at h
        rw [Bool.and_eq_true] at h
        obtain ⟨-, hbal⟩ := h
        have hstack' : (parseStep tracked st log).cpi_stack = st.cpi_stack := by
          unfold parseStep
          rw [hl, hstack]
          dsimp only
          by_cases hm : current ∈ tracked
          · rw [if_pos hm]
            cases base64Decode d <;> rfl
          · rw [if_neg hm]; exact hstack
        have herr : ∀ e ∈ (parseStep tracked st log).errors,
            e ∈ st.errors ∨ isStackError e = false := by
          unfold parseStep
          rw [hl, hstack]
          dsimp only
          by_cases hm : current ∈ tracked
          · rw [if_pos hm]
            cases base64Decode d with
            | some bytes => exact fun e he => Or.inl he
            | none =>
              intro e he
              rcases List.mem_append.mp he with h1 | h1
              · exact Or.inl h1
              · obtain rfl := List.mem_singleton.mp h1
                exact Or.inr rfl
          · rw [if_neg hm]; exact fun e he => Or.inl he
        have hgoal : parseLogsAux tracked st (log :: rest) =
            parseLogsAux tracked (parseStep tracked st log) rest := rfl
        have hbal' : balancedFull (parseStep tracked st log).cpi_stack rest = true := by
          rw [hstack', hstack]; exact hbal
        obtain ⟨hs, he⟩ := ih (parseStep tracked st log) hbal'
        rw [hgoal]
        refine ⟨hs, fun e hee => ?_⟩
        rcases he e hee with h1 | h1
        · exact herr e h1
        · exact Or.inr h1
    | Trivia =>
      rw [hl] at h
      have hstep : parseStep tracked st log = st := by
        unfold parseStep; rw [hl]
      have hgoal : parseLogsAux tracked st (log :: rest) =
          parseLogsAux tracked (parseStep tracked st log) rest := rfl
      rw [hgoal, hstep]
      exact ih st h

/-! ## Claim C7 -/

/-- C7 counterexample: the batch `["Program log: QQ=="]` is balanced in the
claim's sense (no invoke/return/in-program line at all, empty final stack),
yet parsing it produces a `NoCurrentProgramId` error: the lone `Data` line is
seen with an empty invocation stack. -/
theorem C7_counterexample :
    balancedClaim [] ["Program log: QQ==".toList] = true ∧
    (parse_logs ["Program log: QQ==".toList] []).2 =
      [ParseLogError.NoCurrentProgramId "Program log: QQ==".toList] :=
  ⟨rfl, rfl⟩

/-- C7 (amended): for every log batch with balanced invoke/return nesting in
which, additionally, every `Data` line occurs while the invocation stack is
non-empty, `parse_logs` finishes with an empty invocation stack and records
no `ProgramIdMismatch` and no `NoCurrentProgramId` error (only base64 decode
failures are possible). -/
theorem C7_balanced_clean (logs tracked : List (List Char))
    (h : balancedFull [] logs = true) :
    (parseLogsAux tracked ⟨[], [], []⟩ logs).cpi_stack = [] ∧
    ∀ e ∈ (parse_logs logs tracked).2, isStackError e = false := by
  obtain ⟨hs, he⟩ := balancedFull_parseLogsAux tracked logs ⟨[], [], []⟩ h
  refine ⟨hs, fun e hee => ?_⟩
  rcases he e hee with h1 | h1
  · cases h1
  · exact h1

/-- Witness for C7 on a balanced batch containing one tracked `Data` line. -/
theorem C7_balanced_clean_witness :
    balancedFull []
        ["Program P invoke [1]".toList, "Program data: aGVsbG8=".toList,
          "Program P success".toList] = true ∧
    ((parseLogsAux [['P']] ⟨[], [], []⟩
        ["Program P invoke [1]".toList, "Program data: aGVsbG8=".toList,
          "Program P success".toList]).cpi_stack = [] ∧
      ∀ e ∈ (parse_logs
          ["Program P invoke [1]".toList, "Program data: aGVsbG8=".toList,
            "Program P success".toList] [['P']]).2,
        isStackError e = false) :=
  ⟨by decide,
    C7_balanced_clean
      ["Program P invoke [1]".toList, "Program data: aGVsbG8=".toList,
        "Program P success".toList] [['P']] (by decide)⟩

end SolanaVrf
